import Mathlib

/-!
Verification development for the Intercom-canvas / Freshdesk ticketing app.

The server (an Express app appended to `package.json`) is shallowly embedded
below: pure string manipulation is modelled over `List Char`, the stateful
`/api/submit` orchestrator is modelled as an explicit state-passing function
parameterised by the outcomes of its outbound network calls and by the
schedule of its 9-second fallback timer, and the in-memory `ticketTracker`
map is modelled as an association list.

JavaScript conventions used throughout the embedding:
* an absent (`undefined`) string field and the empty string are identified,
  because the server only ever consumes these fields through truthiness
  tests (`a || b`, `if (x)`), which treat the two identically;
* `a || b` on strings is `jsOr`;
* `String.prototype.replace` with a string pattern replaces the first
  occurrence only (`replaceFirstL`);
* `String.prototype.includes` is `hasSubstr`;
* `String.prototype.trim` is `trimWsL` (ASCII whitespace suffices for the
  strings the server builds).
-/

set_option maxRecDepth 16384

/-- Whitespace test used by the model of `String.prototype.trim`. -/
def isWs (c : Char) : Bool :=
  c = ' ' || c = '\n' || c = '\t' || c = '\r'

/-- Model of `String.prototype.trim`: drop whitespace from both ends. -/
def trimWsL (l : List Char) : List Char :=
  ((l.dropWhile isWs).reverse.dropWhile isWs).reverse

/-- `leadsWith pat s` holds when `pat` occurs at the very start of `s`. -/
def leadsWith : List Char → List Char → Bool
  | [], _ => true
  | _ :: _, [] => false
  | p :: ps, c :: cs => p = c && leadsWith ps cs

/-- Model of `String.prototype.includes`. -/
def hasSubstr : List Char → List Char → Bool
  | s, pat =>
    if leadsWith pat s then true
    else
      match s with
      | [] => false
      | _ :: rest => hasSubstr rest pat

/-- Number of positions of `s` at which `pat` occurs (overlaps counted). -/
def countOccur : List Char → List Char → Nat
  | [], _ => 0
  | c :: rest, pat => (if leadsWith pat (c :: rest) then 1 else 0) + countOccur rest pat

/-- Model of `String.prototype.replace` with a string pattern: replace the
first occurrence of `pat` (if any) by `rep`. -/
def replaceFirstL : List Char → List Char → List Char → List Char
  | s, pat, rep =>
    if leadsWith pat s then rep ++ s.drop pat.length
    else
      match s with
      | [] => []
      | c :: rest => c :: replaceFirstL rest pat rep

/-- JavaScript `a || b` on strings ("" and `undefined` are both falsy). -/
def jsOr (a b : String) : String := if a = "" then b else a

/-- String wrapper for `trimWsL`, modelling `s.trim()`. -/
def trimS (s : String) : String := String.mk (trimWsL s.toList)

/-- String wrapper for `replaceFirstL`, modelling `s.replace(pat, rep)`. -/
def strReplaceFirst (s pat rep : String) : String :=
  String.mk (replaceFirstL s.toList pat.toList rep.toList)

/-- String wrapper for `hasSubstr`, modelling `s.includes(pat)`. -/
def hasSubstrS (s pat : String) : Bool := hasSubstr s.toList pat.toList

/-! ### Basic lemmas about the string utilities -/

theorem leadsWith_append (p t : List Char) : leadsWith p (p ++ t) = true := by
  induction p with
  | nil => rfl
  | cons c cs ih => simp [leadsWith, ih]

theorem leadsWith_take {p s : List Char} (h : leadsWith p s = true) :
    s.take p.length = p := by
  induction p generalizing s with
  | nil => simp
  | cons c cs ih =>
    cases s with
    | nil => simp [leadsWith] at h
    | cons d ds =>
      simp only [leadsWith, Bool.and_eq_true, decide_eq_true_eq] at h
      obtain ⟨rfl, h2⟩ := h
      simp [List.take, ih h2]

theorem hasSubstr_of_leadsWith {pat : List Char} {s : List Char}
    (h : leadsWith pat s = true) : hasSubstr s pat = true := by
  cases s <;> simp [hasSubstr, h]

theorem hasSubstr_append_self (x e : List Char) : hasSubstr (x ++ e) e = true := by
  induction x with
  | nil =>
    have h : leadsWith e ([] ++ e) = true := by simpa using leadsWith_append e []
    cases e with
    | nil => simp [hasSubstr, leadsWith]
    | cons c cs => exact hasSubstr_of_leadsWith (by simpa using h)
  | cons c cs ih =>
    by_cases h : leadsWith e (c :: cs ++ e) = true
    · exact hasSubstr_of_leadsWith (by simpa using h)
    · simp only [List.cons_append, hasSubstr]
      rw [if_neg (by simpa using h)]
      exact ih

theorem replaceFirstL_of_leadsWith {s pat : List Char} (rep : List Char)
    (h : leadsWith pat s = true) :
    replaceFirstL s pat rep = rep ++ s.drop pat.length := by
  cases s <;> simp [replaceFirstL, h]

/-! ### The retrying HTTP client (`fetchWithRetry`, server lines 390-440)

`fetchWithRetry(url, options, retries = 3, initialDelay = 500)` loops while
`attempts <= retries`, performing one `axios` call per iteration; on failure
it increments `attempts`, rethrows once `attempts > retries`, otherwise
sleeps `currentDelay` ms and updates
`currentDelay = Math.min(currentDelay * 2, 10000) * (0.8 + Math.random() * 0.4)`.

The attempt outcomes are modelled by a function `Nat → Except E R` giving the
result of the k-th attempt (0-based), and the delay recurrence is modelled
over `ℚ` with the random draw as an explicit parameter `r ∈ [0, 1)`. -/

/-- Default initial delay of `fetchWithRetry` (ms). -/
def initialDelay : ℚ := 500

/-- Delay cap of `fetchWithRetry` (ms), from `Math.min(currentDelay * 2, 10000)`. -/
def backoffCap : ℚ := 10000

/-- The delay update of `fetchWithRetry`:
`currentDelay = Math.min(currentDelay * 2, 10000) * (0.8 + Math.random() * 0.4)`,
with the `Math.random()` draw `r` made explicit. -/
def nextDelay (d r : ℚ) : ℚ := min (d * 2) backoffCap * (4 / 5 + r * (2 / 5))

/-- The retry loop of `fetchWithRetry`: `attempt` is the 0-based index of the
next attempt, `remaining` the number of retries still allowed after it. -/
def retryRun (outcomes : Nat → Except String Nat) : Nat → Nat → Except String Nat
  | attempt, 0 => outcomes attempt
  | attempt, n + 1 =>
    match outcomes attempt with
    | Except.ok r => Except.ok r
    | Except.error _ => retryRun outcomes (attempt + 1) n

/-- `fetchWithRetry` with the default of 3 retries performs at most
`retries + 1` attempts starting from attempt 0. -/
def fetchWithRetry (outcomes : Nat → Except String Nat) (retries : Nat) : Except String Nat :=
  retryRun outcomes 0 retries

theorem retryRun_all_error (outcomes : Nat → Except String Nat) :
    ∀ remaining attempt,
      (∀ k, attempt ≤ k → k ≤ attempt + remaining → ∃ e, outcomes k = Except.error e) →
      retryRun outcomes attempt remaining = outcomes (attempt + remaining) := by
  intro remaining
  induction remaining with
  | zero =>
    intro attempt _
    simp [retryRun]
  | succ n ih =>
    intro attempt h
    obtain ⟨e, he⟩ := h attempt le_rfl (by omega)
    have step := ih (attempt + 1) (fun k hk1 hk2 => h k (by omega) (by omega))
    simp only [retryRun, he]
    rw [step]
    congr 1
    omega

theorem retryRun_ok (outcomes : Nat → Except String Nat) :
    ∀ remaining attempt r,
      retryRun outcomes attempt remaining = Except.ok r →
      ∃ k, attempt ≤ k ∧ k ≤ attempt + remaining ∧ outcomes k = Except.ok r := by
  intro remaining
  induction remaining with
  | zero =>
    intro attempt r h
    exact ⟨attempt, le_rfl, by simp, by simpa [retryRun] using h⟩
  | succ n ih =>
    intro attempt r h
    cases ho : outcomes attempt with
    | ok v =>
      refine ⟨attempt, le_rfl, by omega, ?_⟩
      simp only [retryRun, ho] at h
      rw [ho, h]
    | error e =>
      simp only [retryRun, ho] at h
      obtain ⟨k, hk1, hk2, hk3⟩ := ih (attempt + 1) r h
      exact ⟨k, by omega, by omega, hk3⟩

theorem retryRun_congr (outcomes outcomes2 : Nat → Except String Nat) :
    ∀ remaining attempt,
      (∀ k, attempt ≤ k → k ≤ attempt + remaining → outcomes2 k = outcomes k) →
      retryRun outcomes2 attempt remaining = retryRun outcomes attempt remaining := by
  intro remaining
  induction remaining with
  | zero =>
    intro attempt h
    simp only [retryRun]
    rw [h attempt le_rfl (by simp)]
  | succ n ih =>
    intro attempt h
    simp only [retryRun]
    rw [h attempt le_rfl (by omega)]
    cases outcomes attempt with
    | ok v => rfl
    | error e => exact ih (attempt + 1) (fun k hk1 hk2 => h k (by omega) (by omega))

/-! ### Data model of the server

`ticketTracker` (server line 79) is `Map email → {inProgress, ticketId?, error?,
timestamps}`; the timestamp strings (`startedAt` / `createdAt`) carry no
control-flow significance and are omitted from the record. -/

/-- One `ticketTracker` record. -/
structure TrackRec where
  inProgress : Bool
  ticketId : Option Nat := none
  errorMessage : Option String := none
  deriving Repr, DecidableEq

/-- The record written by `ticketTracker.set(email, {inProgress: true, ...})`. -/
def inProgressRec : TrackRec := { inProgress := true }

/-- The record written on background success (`{inProgress: false, ticketId}`). -/
def completedRec (tid : Nat) : TrackRec := { inProgress := false, ticketId := some tid }

/-- The record written on background failure (`{inProgress: false, error}`). -/
def failedRec (e : String) : TrackRec := { inProgress := false, errorMessage := some e }

/-- The in-memory `ticketTracker` map, as an association list with unique keys. -/
def Tracker : Type := List (String × TrackRec)

instance : DecidableEq Tracker := by unfold Tracker; infer_instance

/-- `ticketTracker.set`: insert or overwrite the record for a key. -/
def trackerSet (t : Tracker) (k : String) (v : TrackRec) : Tracker :=
  (k, v) :: (List.filter (fun p => p.1 != k) t)

/-- `ticketTracker.get` / `ticketTracker.has` combined: look a key up. -/
def trackerGet (t : Tracker) (k : String) : Option TrackRec :=
  (List.find? (fun p => p.1 == k) t).map (fun p => p.2)

/-- `ticketTracker.delete`. -/
def trackerDelete (t : Tracker) (k : String) : Tracker :=
  List.filter (fun p => p.1 != k) t

/-- The process-wide `app.locals.intercomContext` object. -/
structure IntercomCtx where
  customerEmail : String
  defaultTitle : String
  defaultDescription : String
  deriving Repr, DecidableEq

/-- The email stored in `app.locals.intercomContext?.customerEmail`
(`""` when the context has never been written). -/
def ctxEmail : Option IntercomCtx → String
  | none => ""
  | some c => c.customerEmail

/-- Configuration constant `FRESHDESK_DOMAIN` (from `process.env`; the
concrete value is irrelevant to every property proved below). -/
def FRESHDESK_DOMAIN : String := "https://example.freshdesk.com"

/-- Configuration constant `INTERCOM_INBOX_URL` (from `process.env`). -/
def INTERCOM_INBOX_URL : String := "https://app.intercom.com/inbox"

/-! ### The `/api/submit` request and its environment

A canvas form submission (`req.body`). Absent fields are `""` (see the
truthiness note at the top of the file). -/

instance {e a : Type} [DecidableEq e] [DecidableEq a] : DecidableEq (Except e a) := fun x y =>
  match x, y with
  | Except.ok v, Except.ok w =>
    if h : v = w then Decidable.isTrue (by rw [h])
    else Decidable.isFalse (fun hc => h (Except.ok.injEq v w ▸ hc))
  | Except.ok _, Except.error _ => Decidable.isFalse (fun hc => Except.noConfusion hc)
  | Except.error _, Except.ok _ => Decidable.isFalse (fun hc => Except.noConfusion hc)
  | Except.error v, Except.error w =>
    if h : v = w then Decidable.isTrue (by rw [h])
    else Decidable.isFalse (fun hc => h (Except.error.injEq v w ▸ hc))

/-- The parts of the `/api/submit` request body the handler reads. -/
structure SubmitReq where
  componentId : String := ""
  inputEmail : String := ""
  inputSubject : String := ""
  inputDescription : String := ""
  inputProductId : String := ""
  inputStatus : String := ""
  inputPriority : String := ""
  contactEmail : String := ""
  customerEmail : String := ""
  contactName : String := ""
  customerName : String := ""
  convSourceBody : String := ""
  conversationIdField : String := ""
  convObjId : String := ""
  deriving Repr, DecidableEq

/-- Outcomes of the outbound calls a single `/api/submit` request can make.

`helperTranscript` and `createTicket` stand for `addConversationTranscriptToTicket`
and `createFreshdeskTicket`, which are imported from `conversation-helper.js`
(a file absent from the repository snapshot). Modelled from the spec:
the Transcript Fetcher "fails with a `TranscriptUnavailable` condition on any
upstream error" (so the helper call can fail), on success it merges the
fetched transcript markup into the ticket description; the Ticket Creator
returns the new ticket id or the last failure of the retrying client. -/
structure Env where
  metadataOk : Bool := true
  inlineTranscript : Except String String := Except.ok ""
  helperTranscript : Except String String := Except.ok ""
  createTicket : Except String Nat := Except.ok 1
  deriving Repr, DecidableEq

/-- The default environment: every outbound call succeeds. -/
def env0 : Env := {}

/-- The distinct widget views `/api/submit` can emit (component trees are
abstracted to their kind plus the fields the claims are about). -/
inductive View where
  | formView (emailPrefill : String)
  | errorForm (emailErr : Option String) (subjectErr : Option String)
  | fillAllFields
  | homepage
  | metadataError
  | timeoutHomepage
  deriving Repr, DecidableEq

/-- Observable steps of the detached background task, in execution order. -/
inductive BgEvent where
  | transcriptFetch (cid : String)
  | addTranscript (cid : String)
  | createTicket (description : String)
  | notePosted (cid : String) (body : String)
  | trackerSet (email : String) (rec : TrackRec)
  deriving Repr, DecidableEq

/-- Body of the Intercom note posted on background success (line 1588). -/
def successNoteBody (tid : Nat) : String :=
  "Freshdesk Ticket creation successful.\nTicket URL: " ++ FRESHDESK_DOMAIN
    ++ "/a/tickets/" ++ toString tid

/-- Body of the Intercom note posted on background failure (line 1607). -/
def failureNoteBody (e : String) : String :=
  "Freshdesk Ticket creation failed. Contact Admin.\nError: " ++ e

/-- Result of one run of the detached background task. -/
structure BgResult where
  events : List BgEvent
  tracker : Tracker
  deriving DecidableEq

/-- The detached background task of `/api/submit` (lines 1534-1620):
inline transcript fetch (failure caught), then the unguarded
`addConversationTranscriptToTicket` call, then `createFreshdeskTicket`;
on success a success note is posted (when a conversation id exists) and the
tracker is marked completed; any uncaught failure jumps to the catch block,
which posts a failure note (when a conversation id exists) and marks the
tracker failed. -/
def backgroundTask (email subject description productId conversationId : String)
    (env : Env) (tr : Tracker) : BgResult :=
  let _ := subject
  let _ := productId
  -- description after the guarded inline fetch+format (lines 1536-1556)
  let desc1 :=
    if conversationId ≠ "" then
      match env.inlineTranscript with
      | Except.ok t => if t ≠ "" then description ++ "\n\n" ++ t else description
      | Except.error _ => description
    else description
  let fetchEvents : List BgEvent :=
    if conversationId ≠ "" then [BgEvent.transcriptFetch conversationId] else []
  -- the catch block (lines 1601-1619)
  let onFail : String → List BgEvent → BgResult := fun e evs =>
    let evs := evs ++ (if conversationId ≠ ""
      then [BgEvent.notePosted conversationId (failureNoteBody e)] else [])
    if email ≠ "" then
      { events := evs ++ [BgEvent.trackerSet email (failedRec e)],
        tracker := trackerSet tr email (failedRec e) }
    else { events := evs, tracker := tr }
  -- unguarded addConversationTranscriptToTicket (lines 1572-1576)
  let afterHelper : Except String String :=
    if conversationId ≠ "" then
      match env.helperTranscript with
      | Except.ok t2 => Except.ok (desc1 ++ t2)
      | Except.error e => Except.error e
    else Except.ok desc1
  match afterHelper with
  | Except.error e =>
    onFail e (fetchEvents ++ [BgEvent.addTranscript conversationId])
  | Except.ok desc2 =>
    let evs := fetchEvents
      ++ (if conversationId ≠ "" then [BgEvent.addTranscript conversationId] else [])
      ++ [BgEvent.createTicket desc2]
    match env.createTicket with
    | Except.error e => onFail e evs
    | Except.ok tid =>
      let evs := evs ++ (if conversationId ≠ ""
        then [BgEvent.notePosted conversationId (successNoteBody tid)] else [])
      if email ≠ "" then
        { events := evs ++ [BgEvent.trackerSet email (completedRec tid)],
          tracker := trackerSet tr email (completedRec tid) }
      else { events := evs, tracker := tr }

/-! ### The `/api/submit` handler -/

/-- Observable state of one `/api/submit` request/response cycle.
`atEmit` snapshots the tracker at the moment the first response is emitted;
`trackerLog` records every `ticketTracker.set` in order; `accepted` records
the description value accepted into background processing (if any). -/
structure ExecState where
  responseSent : Bool
  timerCleared : Bool
  emissions : List View
  tracker : Tracker
  trackerLog : List (String × TrackRec)
  bgEvents : List BgEvent
  locals : Option IntercomCtx
  atEmit : Option Tracker
  accepted : Option String
  deriving DecidableEq

/-- Record an actual `res.json` emission (shared by all emission helpers). -/
def recordEmit (st : ExecState) (v : View) : ExecState :=
  { st with emissions := st.emissions ++ [v],
            atEmit := match st.atEmit with
              | none => some st.tracker
              | some t => some t }

/-- `sendResponse` (lines 798-805): emit only when the `responseSent` flag is
unset, setting the flag and clearing the 9-second timer. -/
def sendResponse (st : ExecState) (v : View) : ExecState :=
  if st.responseSent then st
  else recordEmit { st with responseSent := true, timerCleared := true } v

/-- A direct `res.json(...)` call that bypasses `sendResponse`: it neither
checks nor sets the flag and does not clear the timer. -/
def directEmit (st : ExecState) (v : View) : ExecState := recordEmit st v

/-- The 9-second fallback timer callback (lines 656-795): if no response has
been sent it sets the flag, marks an in-progress tracker entry for the
contact identity when the submission was a ticket submission, and emits the
homepage view. -/
def timerFire (req : SubmitReq) (st : ExecState) : ExecState :=
  if st.timerCleared then st
  else if st.responseSent then st
  else
    let st := { st with responseSent := true }
    let email := jsOr req.contactEmail (jsOr req.customerEmail (ctxEmail st.locals))
    let st :=
      if email ≠ "" ∧ req.componentId = "submit_ticket_button" then
        { st with tracker := trackerSet st.tracker email inProgressRec,
                  trackerLog := st.trackerLog ++ [(email, inProgressRec)] }
      else st
    directEmit st View.timeoutHomepage

/-- Fire the timer now when this schedule has it firing during the branch's
awaits (`timerFirst = true`); otherwise leave the state unchanged. -/
def stepTimerIf (timerFirst : Bool) (req : SubmitReq) (st : ExecState) : ExecState :=
  if timerFirst then timerFire req st else st

/-- The `ticketTracker.set` writes performed by a background task, in order. -/
def trackerWrites (evs : List BgEvent) : List (String × TrackRec) :=
  List.filterMap (fun ev =>
    match ev with
    | BgEvent.trackerSet k v => some (k, v)
    | _ => none) evs

/-- The branch of the `/api/submit` handler selected by `component_id`
(lines 832-1862), with the fallback timer applied at the branch's first
suspension point when `timerFirst` is set.

* `create_ticket` (832): metadata fetch failure returns a 500 error view via
  a direct `res.status(500).json` (877), success returns the form via
  `sendResponse` (1036).
* `submit_ticket_button` (1054): empty-after-trim email/subject returns the
  re-rendered form with field errors via `sendResponse` (1212); a defensive
  re-check (1267) and the remaining required-field check (1372) return error
  views via `sendResponse`; otherwise the tracker is marked in-progress
  (1517), the homepage view is sent (1525) and the background task is
  detached (1534).
* `cancel` (1624) replies via `sendResponse` (1749/1760).
* `refresh_status` / `retry_button` (1794) and the unrecognized-id fallback
  (1828) reply via direct `res.json` calls. -/
def runBranch (req : SubmitReq) (env : Env) (timerFirst : Bool) (st : ExecState) :
    ExecState :=
  if req.componentId = "create_ticket" then
    let st := stepTimerIf timerFirst req st
    if env.metadataOk then
      sendResponse st (View.formView (jsOr req.contactEmail req.customerEmail))
    else directEmit st View.metadataError
  else if req.componentId = "submit_ticket_button" then
    let st := stepTimerIf timerFirst req st
    if trimS req.inputEmail = "" ∨ trimS req.inputSubject = "" then
      sendResponse st (View.errorForm
        (if trimS req.inputEmail = "" then some "Email is required" else none)
        (if trimS req.inputSubject = "" then some "Subject is required" else none))
    else
      let email := trimS req.inputEmail
      let subject := trimS req.inputSubject
      let description := jsOr req.inputDescription req.convSourceBody
      let productId :=
        if req.inputProductId ≠ "" then strReplaceFirst req.inputProductId "product_" ""
        else ""
      let conversationId := jsOr req.conversationIdField req.convObjId
      if email = "" ∨ subject = "" then
        sendResponse st (View.errorForm (some "Email is required") none)
      else if subject = "" ∨ description = "" ∨ productId = "" then
        sendResponse st View.fillAllFields
      else
        let st :=
          if email ≠ "" then
            { st with tracker := trackerSet st.tracker email inProgressRec,
                      trackerLog := st.trackerLog ++ [(email, inProgressRec)] }
          else st
        let st := sendResponse st View.homepage
        let st := { st with accepted := some description }
        let bg := backgroundTask email subject description productId conversationId env
          st.tracker
        { st with tracker := bg.tracker, bgEvents := bg.events,
                  trackerLog := st.trackerLog ++ trackerWrites bg.events }
  else if req.componentId = "cancel" then
    let st := stepTimerIf timerFirst req st
    sendResponse st View.homepage
  else if req.componentId = "refresh_status" ∨ req.componentId = "retry_button" then
    directEmit st View.homepage
  else
    directEmit st View.homepage

/-- One complete `/api/submit` request (lines 649-1905): initialize the
response flag and timer, synchronously store `app.locals.intercomContext`
(826), run the selected branch, and let the 9-second timer fire afterwards
when it has neither fired during the branch nor been cleared.
`timerFirst` selects the schedule in which the timer fires while the branch
is suspended on an outbound call (only branches with suspension points
consult it). -/
def runSubmit (req : SubmitReq) (env : Env) (timerFirst : Bool)
    (tr0 : Tracker) (locals0 : Option IntercomCtx) : ExecState :=
  let _ := locals0
  let contactName := jsOr req.contactName (jsOr req.customerName "Contact")
  let ctx : IntercomCtx :=
    { customerEmail := jsOr req.contactEmail req.customerEmail,
      defaultTitle := "Conversation from " ++ contactName,
      defaultDescription := req.convSourceBody }
  let st0 : ExecState :=
    { responseSent := false, timerCleared := false, emissions := [], tracker := tr0,
      trackerLog := [], bgEvents := [], locals := some ctx, atEmit := none,
      accepted := none }
  let st := runBranch req env timerFirst st0
  if timerFirst then st else timerFire req st

/-! ### `/api/initialize` and `/api/freshdesk/recent-tickets` -/

/-- The parts of the `/api/initialize` request body the handler reads. -/
structure InitReq where
  customerEmail : String := ""
  contactEmail : String := ""
  convContactEmail : String := ""
  contactName : String := ""
  customerName : String := ""
  convDefaultDescription : String := ""
  convSourceBody : String := ""
  deriving Repr, DecidableEq

/-- The `/api/initialize` handler (lines 138-344), restricted to its state
effects: clear a stale in-progress tracker entry for the derived customer
email and overwrite `app.locals.intercomContext`. -/
def runInitialize (req : InitReq) (tr : Tracker) (locals : Option IntercomCtx) :
    Tracker × Option IntercomCtx :=
  let _ := locals
  let email := jsOr req.customerEmail (jsOr req.contactEmail req.convContactEmail)
  let tr :=
    if email ≠ "" then
      match trackerGet tr email with
      | some r => if r.inProgress then trackerDelete tr email else tr
      | none => tr
    else tr
  let contactName := jsOr req.contactName req.customerName
  let ctx : IntercomCtx :=
    { customerEmail := email,
      defaultTitle :=
        if contactName ≠ "" then "Conversation from " ++ contactName
        else "New Conversation",
      defaultDescription := jsOr req.convDefaultDescription req.convSourceBody }
  (tr, some ctx)

/-- The `GET /api/freshdesk/recent-tickets` handler (lines 469-504), reduced
to the email it serves tickets for: the `email` query parameter when present,
else the process-wide `app.locals.intercomContext?.customerEmail`; a 400
error when both are missing. On success the response is the ticket list of
that email (represented by the email itself). -/
def recentTicketsFor (queryEmail : String) (locals : Option IntercomCtx) :
    Except Nat String :=
  let customerEmail := jsOr queryEmail (ctxEmail locals)
  if customerEmail = "" then Except.error 400 else Except.ok customerEmail

/-! ### The banner merge of `/api/freshdesk/create-ticket` (lines 613-624)

```js
const intercomUrl = `${process.env.INTERCOM_INBOX_URL}/conversation/${conversationId}`;
const urlSection = `Chat Transcript Added\n\nIntercom Conversation URL: ${intercomUrl}\n\n`;
if (ticketData.description && ticketData.description.includes('Chat Transcript Added')) {
  ticketData.description = ticketData.description.replace('Chat Transcript Added', urlSection.trim());
} else {
  ticketData.description = urlSection + (ticketData.description || '');
}
```

`url` below stands for the full `intercomUrl` value. -/

/-- The banner's anchor phrase. -/
def anchorL : List Char := "Chat Transcript Added".toList

/-- The text between the anchor and the conversation url inside the banner. -/
def bannerLabel : List Char := "\n\nIntercom Conversation URL: ".toList

/-- The banner's trailing blank line. -/
def nn2 : List Char := "\n\n".toList

/-- The `urlSection` template string. -/
def urlSection (url : List Char) : List Char := anchorL ++ bannerLabel ++ url ++ nn2

/-- The banner merge itself, translated from lines 620-624. -/
def mergeBanner (url : List Char) (d : List Char) : List Char :=
  if !d.isEmpty && hasSubstr d anchorL then
    replaceFirstL d anchorL (trimWsL (urlSection url))
  else urlSection url ++ d

/-- `chFree w` holds when the two-character sequence `Ch` (the head of the
anchor phrase) occurs nowhere in `w`; such a `w` cannot contain the anchor. -/
def chFree : List Char → Bool
  | [] => true
  | [_] => true
  | a :: b :: rest => !(a = 'C' && b = 'h') && chFree (b :: rest)

/-- Side conditions on the conversation url under which the banner merge is
analysed: nonempty, without the sequence `Ch`, and not ending in whitespace. -/
def urlOk (url : List Char) : Prop :=
  url ≠ [] ∧ chFree url = true ∧ url.getLast?.all (fun c => !isWs c) = true

instance (url : List Char) : Decidable (urlOk url) := by unfold urlOk; infer_instance

theorem urlOk_last {url : List Char} (h : urlOk url) :
    ∀ c, url.getLast? = some c → isWs c = false := by
  intro c hc
  have h3 := h.2.2
  rw [hc] at h3
  simpa using h3

/-- Shape of descriptions reachable by merging the banner into a `Ch`-free
description: the anchor, followed by a newline-headed `Ch`-free tail. -/
def bannerGood (s : List Char) : Prop :=
  ∃ w, s = anchorL ++ w ∧ w.head? = some '\n' ∧ chFree w = true

theorem anchor_expand : anchorL = 'C' :: 'h' :: "at Transcript Added".toList := by decide

theorem bannerLabel_expand :
    bannerLabel = '\n' :: '\n' :: "Intercom Conversation URL: ".toList := by decide

theorem nn2_expand : nn2 = '\n' :: '\n' :: [] := by decide

theorem chFree_tail {a : Char} {l : List Char} (h : chFree (a :: l) = true) :
    chFree l = true := by
  cases l with
  | nil => rfl
  | cons b t =>
    simp only [chFree, Bool.and_eq_true] at h
    exact h.2

theorem chFree_cons {a : Char} {l : List Char} (ha : a ≠ 'C')
    (h : chFree l = true) : chFree (a :: l) = true := by
  cases l with
  | nil => rfl
  | cons b t => simp [chFree, ha, h]

theorem chFree_append {x y : List Char} (hx : chFree x = true) (hy : chFree y = true)
    (hb : ∀ a, x.getLast? = some a → a = 'C' → y.head? ≠ some 'h') :
    chFree (x ++ y) = true := by
  induction x with
  | nil => simpa using hy
  | cons a t ih =>
    cases t with
    | nil =>
      cases y with
      | nil => simpa using hx
      | cons b u =>
        have hbu : b ≠ 'h' ∨ a ≠ 'C' := by
          by_cases hC : a = 'C'
          · left
            intro hbh
            exact hb a rfl hC (by rw [hbh]; rfl)
          · right; exact hC
        simp only [List.cons_append, List.nil_append, chFree, Bool.and_eq_true,
          Bool.not_eq_true']
        refine ⟨?_, hy⟩
        rcases hbu with h1 | h1 <;> simp [h1]
    | cons b u =>
      have h1 : ¬(a = 'C' ∧ b = 'h') := by
        intro hab
        have := hx
        simp [chFree, hab.1, hab.2] at this
      have h2 : chFree ((b :: u) ++ y) = true := by
        refine ih (chFree_tail hx) ?_
        intro c hc
        exact hb c (by rw [List.getLast?_cons_cons]; exact hc)
      simp only [List.cons_append, chFree, Bool.and_eq_true, Bool.not_eq_true']
      constructor
      · by_cases hC : a = 'C'
        · by_cases hh : b = 'h'
          · exact absurd ⟨hC, hh⟩ h1
          · simp [hh]
        · simp [hC]
      · simpa using h2

theorem leadsWith_anchor_shape {s : List Char} (h : leadsWith anchorL s = true) :
    ∃ rest, s = 'C' :: 'h' :: rest := by
  rw [anchor_expand] at h
  cases s with
  | nil => simp [leadsWith] at h
  | cons c t =>
    cases t with
    | nil =>
      simp only [leadsWith, Bool.and_eq_true, decide_eq_true_eq] at h
      exact absurd h.2 (by simp [leadsWith])
    | cons b u =>
      simp only [leadsWith, Bool.and_eq_true, decide_eq_true_eq] at h
      exact ⟨u, by rw [h.1, h.2.1]⟩

theorem countOccur_nil_of_chFree {w : List Char} (hw : chFree w = true) :
    countOccur w anchorL = 0 := by
  induction w with
  | nil => rfl
  | cons c rest ih =>
    have hlead : leadsWith anchorL (c :: rest) = false := by
      by_contra hpos
      obtain ⟨r, hr⟩ := leadsWith_anchor_shape (by simpa using hpos)
      rw [hr] at hw
      simp [chFree] at hw
    simp [countOccur, hlead, ih (chFree_tail hw)]

theorem hasSubstr_anchor_false_of_chFree {w : List Char} (hw : chFree w = true) :
    hasSubstr w anchorL = false := by
  induction w with
  | nil => simp [hasSubstr, anchor_expand, leadsWith]
  | cons c rest ih =>
    have hlead : leadsWith anchorL (c :: rest) = false := by
      by_contra hpos
      obtain ⟨r, hr⟩ := leadsWith_anchor_shape (by simpa using hpos)
      rw [hr] at hw
      simp [chFree] at hw
    simp only [hasSubstr, hlead]
    simpa using ih (chFree_tail hw)

theorem countOccur_cons (c : Char) (rest pat : List Char) :
    countOccur (c :: rest) pat
      = (if leadsWith pat (c :: rest) then 1 else 0) + countOccur rest pat := rfl

theorem countOccur_anchorDrop_append :
    ∀ (x u : List Char), (∃ k, 1 ≤ k ∧ x = anchorL.drop k) → u.head? = some '\n' →
      countOccur (x ++ u) anchorL = countOccur u anchorL := by
  intro x
  induction x with
  | nil =>
    intro u _ _
    simp
  | cons c t ih =>
    intro u hx hu
    obtain ⟨k, hk1, hk⟩ := hx
    have h21 : anchorL.length = 21 := by decide
    have hlen : (c :: t).length < anchorL.length := by
      have hd : (anchorL.drop k).length = anchorL.length - k := List.length_drop k anchorL
      rw [← hk] at hd
      have hge : 1 ≤ (c :: t).length := by simp
      rw [h21] at hd ⊢
      omega
    have hlead : leadsWith anchorL ((c :: t) ++ u) = false := by
      by_contra hpos
      have hpos' : leadsWith anchorL ((c :: t) ++ u) = true := by simpa using hpos
      have htake := leadsWith_take hpos'
      rw [List.take_append_eq_append_take, List.take_of_length_le (le_of_lt hlen)] at htake
      cases u with
      | nil =>
        have hlen2 := congrArg List.length htake
        rw [List.take_nil, List.append_nil] at hlen2
        omega
      | cons a v =>
        have ha : a = '\n' := by simpa using hu
        subst ha
        have hmem : '\n' ∈ anchorL := by
          rw [← htake]
          apply List.mem_append_right
          cases hm : anchorL.length - (c :: t).length with
          | zero => omega
          | succ m => simp
        exact absurd hmem (by decide)
    have ht : t = anchorL.drop (k + 1) := by
      have hdt := List.tail_drop anchorL k
      rw [← hk] at hdt
      simpa using hdt
    have hstep := ih u ⟨k + 1, by omega, ht⟩ hu
    rw [List.cons_append, countOccur_cons]
    rw [show leadsWith anchorL (c :: (t ++ u)) = false from by
      rw [← List.cons_append]; exact hlead]
    simpa using hstep

theorem countOccur_anchor_prepend {u : List Char} (hu : u.head? = some '\n') :
    countOccur (anchorL ++ u) anchorL = 1 + countOccur u anchorL := by
  have hdrop : "hat Transcript Added".toList = anchorL.drop 1 := by decide
  have hcons : anchorL ++ u = 'C' :: ("hat Transcript Added".toList ++ u) := by
    rw [anchor_expand]
    rfl
  have hlead' : leadsWith anchorL ('C' :: ("hat Transcript Added".toList ++ u)) = true := by
    rw [← hcons]
    exact leadsWith_append anchorL u
  rw [hcons, countOccur_cons, hlead']
  rw [countOccur_anchorDrop_append _ u ⟨1, le_rfl, hdrop⟩ hu]
  simp

/-- A `bannerGood` description contains the anchor phrase exactly once. -/
theorem countOccur_of_bannerGood {s : List Char} (h : bannerGood s) :
    countOccur s anchorL = 1 := by
  obtain ⟨w, rfl, hw1, hw2⟩ := h
  rw [countOccur_anchor_prepend hw1, countOccur_nil_of_chFree hw2]

theorem urlSection_cons (url : List Char) :
    urlSection url
      = 'C' :: ('h' :: ("at Transcript Added".toList ++ (bannerLabel ++ (url ++ nn2)))) := by
  rw [urlSection, anchor_expand]
  rfl

theorem trimWsL_urlSection {url : List Char} (hne : url ≠ [])
    (hlast : ∀ c, url.getLast? = some c → isWs c = false) :
    trimWsL (urlSection url) = anchorL ++ (bannerLabel ++ url) := by
  obtain ⟨c, r, hcr, hc⟩ : ∃ c r, url.reverse = c :: r ∧ isWs c = false := by
    cases hu : url.reverse with
    | nil => exact absurd (by simpa using congrArg List.reverse hu) hne
    | cons c r =>
      refine ⟨c, r, rfl, ?_⟩
      apply hlast
      rw [List.getLast?_eq_head?_reverse, hu]
      rfl
  have hu2 : url = r.reverse ++ [c] := by
    rw [← List.reverse_reverse url, hcr]
    simp
  unfold trimWsL
  rw [show List.dropWhile isWs (urlSection url) = urlSection url from by
    rw [urlSection_cons, List.dropWhile_cons, if_neg (by decide)]]
  rw [urlSection]
  simp only [List.reverse_append, List.append_assoc]
  rw [show nn2.reverse = '\n' :: ('\n' :: []) from by decide, hcr]
  simp only [List.cons_append, List.nil_append]
  rw [List.dropWhile_cons, if_pos (by decide), List.dropWhile_cons, if_pos (by decide),
    List.dropWhile_cons, if_neg (by simp [hc])]
  rw [hu2]
  simp [List.reverse_append, List.append_assoc]

theorem bannerGood_merge_of_chFree {url d : List Char} (hurl : urlOk url)
    (hd : chFree d = true) : bannerGood (mergeBanner url d) := by
  obtain ⟨hne, hcf, _⟩ := hurl
  have hno : hasSubstr d anchorL = false := hasSubstr_anchor_false_of_chFree hd
  have hcond : (!d.isEmpty && hasSubstr d anchorL) = false := by simp [hno]
  rw [mergeBanner, hcond]
  simp only [Bool.false_eq_true, if_false]
  refine ⟨bannerLabel ++ (url ++ (nn2 ++ d)), ?_, ?_, ?_⟩
  · rw [urlSection]
    simp [List.append_assoc]
  · rw [bannerLabel_expand]
    rfl
  · have hnn2d : chFree (nn2 ++ d) = true := by
      rw [nn2_expand]
      exact chFree_cons (by decide) (chFree_cons (by decide) hd)
    have hud : chFree (url ++ (nn2 ++ d)) = true := by
      refine chFree_append hcf hnn2d ?_
      intro a _ _
      rw [nn2_expand]
      simp
    refine chFree_append (by decide) hud ?_
    intro a ha hC
    have : a = ' ' := by
      have hbl : bannerLabel.getLast? = some ' ' := by decide
      rw [hbl] at ha
      exact (Option.some.injEq _ _ ▸ ha).symm
    simp [hC] at this

theorem bannerGood_merge_step {url s : List Char} (hurl : urlOk url)
    (hs : bannerGood s) : bannerGood (mergeBanner url s) := by
  have hlast := urlOk_last hurl
  obtain ⟨hne, hcf, _⟩ := hurl
  obtain ⟨w, rfl, hw1, hw2⟩ := hs
  have hlead : leadsWith anchorL (anchorL ++ w) = true := leadsWith_append anchorL w
  have hconsform : anchorL ++ w = 'C' :: ("hat Transcript Added".toList ++ w) := by
    rw [anchor_expand]
    rfl
  have hcond : (!(anchorL ++ w).isEmpty && hasSubstr (anchorL ++ w) anchorL) = true := by
    rw [Bool.and_eq_true]
    refine ⟨?_, hasSubstr_of_leadsWith hlead⟩
    rw [hconsform]
    rfl
  rw [mergeBanner, hcond]
  simp only [if_true]
  rw [replaceFirstL_of_leadsWith _ hlead]
  rw [show (anchorL ++ w).drop anchorL.length = w from List.drop_left anchorL w]
  rw [trimWsL_urlSection hne hlast]
  refine ⟨bannerLabel ++ (url ++ w), by simp [List.append_assoc], ?_, ?_⟩
  · rw [bannerLabel_expand]
    rfl
  · have huw : chFree (url ++ w) = true := by
      refine chFree_append hcf hw2 ?_
      intro a _ _
      rw [hw1]
      simp
    refine chFree_append (by decide) huw ?_
    intro a ha hC
    have hbl : bannerLabel.getLast? = some ' ' := by decide
    rw [hbl] at ha
    have : a = ' ' := (Option.some.injEq _ _ ▸ ha).symm
    simp [hC] at this

/-! ### Claim C4 -/

/-- A concrete conversation url for the banner-merge computations. -/
def urlc : List Char := "https://x/1".toList

/-- A description already holding two copies of the trimmed banner. -/
def bannerTwice : List Char :=
  (anchorL ++ (bannerLabel ++ urlc)) ++ (anchorL ++ (bannerLabel ++ urlc))

/-- C4 (counterexample): the claim "for every description, merging the banner
into a description that already contains it yields exactly one banner
occurrence" is false: `bannerTwice` contains the banner (and its anchor
phrase twice), and merging the banner into it leaves two anchor occurrences,
because the merge replaces only the first occurrence of the anchor. -/
theorem mergeBanner_two_banners_remain :
    hasSubstr bannerTwice anchorL = true ∧
      countOccur bannerTwice anchorL = 2 ∧
      countOccur (mergeBanner urlc bannerTwice) anchorL = 2 := by decide

/-- C4 (amended): the merge replaces the first anchor occurrence with the
refreshed banner when the description is nonempty and contains the anchor,
and prepends the banner otherwise; for every description containing no `Ch`
pair (in particular no anchor), any number of repeated merges yields a
description containing the anchor phrase exactly once. -/
theorem mergeBanner_iterate_single_anchor (url d : List Char) (n : Nat)
    (hurl : urlOk url) (hd : chFree d = true) :
    countOccur ((mergeBanner url)^[n + 1] d) anchorL = 1 := by
  have hgood : ∀ m, bannerGood ((mergeBanner url)^[m + 1] d) := by
    intro m
    induction m with
    | zero =>
      rw [show (0 : Nat) + 1 = 1 from rfl, Function.iterate_one]
      exact bannerGood_merge_of_chFree hurl hd
    | succ k ih =>
      rw [Function.iterate_succ_apply']
      exact bannerGood_merge_step hurl ih
  exact countOccur_of_bannerGood (hgood n)

/-- C4 (witness): three successive merges into the empty description leave
exactly one anchor occurrence. -/
theorem mergeBanner_iterate_single_anchor_witness :
    urlOk urlc ∧ chFree [] = true ∧
      countOccur ((mergeBanner urlc)^[2 + 1] []) anchorL = 1 :=
  ⟨by decide, by decide,
    mergeBanner_iterate_single_anchor urlc [] 2 (by decide) (by decide)⟩

/-! ### Claim C5 -/

/-- C5: the delay before the next attempt lies in
`[min(delay * 2, cap) * 0.8, min(delay * 2, cap) * 1.2]` for every current
delay `d ≥ 0` and every random draw `r ∈ [0, 1)`; the base delay is 500 and
the cap is 10000 (see `initialDelay` and `backoffCap`). -/
theorem nextDelay_within_jitter_window (d r : ℚ) (hd : 0 ≤ d) (hr0 : 0 ≤ r)
    (hr1 : r < 1) :
    min (d * 2) backoffCap * (4 / 5) ≤ nextDelay d r ∧
      nextDelay d r ≤ min (d * 2) backoffCap * (6 / 5) := by
  have hm : 0 ≤ min (d * 2) backoffCap := by
    refine le_min (by linarith) ?_
    rw [backoffCap]
    norm_num
  have h1 : 0 ≤ min (d * 2) backoffCap * r := mul_nonneg hm hr0
  have h2 : 0 ≤ min (d * 2) backoffCap * (1 - r) := mul_nonneg hm (by linarith)
  unfold nextDelay
  constructor <;> nlinarith [h1, h2]

/-- C5 (witness): the jitter window bounds hold at the initial delay with a
middle random draw. -/
theorem nextDelay_within_jitter_window_witness :
    min (initialDelay * 2) backoffCap * (4 / 5) ≤ nextDelay initialDelay (1 / 2) ∧
      nextDelay initialDelay (1 / 2) ≤ min (initialDelay * 2) backoffCap * (6 / 5) :=
  nextDelay_within_jitter_window initialDelay (1 / 2)
    (by rw [initialDelay]; norm_num) (by norm_num) (by norm_num)

/-! ### Claim C6 -/

/-- C6: with the default of 3 retries, `fetchWithRetry` (a) when attempts
0..3 all fail, returns exactly the failure of attempt 3 (the 4th and last
attempt) — the last failure is surfaced to the caller; (b) returns a success
only if it is the verbatim result of one of attempts 0..3 (no partial or
cached result); (c) never consults any attempt beyond the 4th. -/
theorem fetchWithRetry_contract (outcomes : Nat → Except String Nat) :
    ((∀ k, k ≤ 3 → ∃ e, outcomes k = Except.error e) →
        fetchWithRetry outcomes 3 = outcomes 3) ∧
      (∀ r, fetchWithRetry outcomes 3 = Except.ok r →
        ∃ k, k ≤ 3 ∧ outcomes k = Except.ok r) ∧
      (∀ outcomes2 : Nat → Except String Nat,
        (∀ k, k ≤ 3 → outcomes2 k = outcomes k) →
        fetchWithRetry outcomes2 3 = fetchWithRetry outcomes 3) := by
  refine ⟨?_, ?_, ?_⟩
  · intro h
    have hall := retryRun_all_error outcomes 3 0 (fun k _ hk2 => h k (by omega))
    simpa [fetchWithRetry] using hall
  · intro r h
    obtain ⟨k, _, hk3, hout⟩ :=
      retryRun_ok outcomes 3 0 r (by simpa [fetchWithRetry] using h)
    exact ⟨k, by omega, hout⟩
  · intro o2 h
    exact retryRun_congr outcomes o2 3 0 (fun k _ hk2 => h k (by omega))

/-- Attempt outcomes in which every attempt fails. -/
def outAllFail : Nat → Except String Nat := fun k => Except.error (toString k)

/-- C6 (witness): when all four attempts fail, the result is the failure of
the fourth attempt. -/
theorem fetchWithRetry_contract_witness :
    fetchWithRetry outAllFail 3 = outAllFail 3 :=
  (fetchWithRetry_contract outAllFail).1 (fun k _ => ⟨toString k, rfl⟩)

/-! ### Characterizations of the `/api/submit` paths -/

theorem trackerGet_set (t : Tracker) (k : String) (v : TrackRec) :
    trackerGet (trackerSet t k v) k = some v := by
  simp [trackerGet, trackerSet]

theorem trackerWrites_append (a b : List BgEvent) :
    trackerWrites (a ++ b) = trackerWrites a ++ trackerWrites b := by
  simp [trackerWrites]

/-- The state produced by a valid ticket submission handled before the
fallback timer fires: in-progress tracker entry, immediate homepage
response, then the background task's effects. -/
def validSubmitOutcome (req : SubmitReq) (env : Env) (tr0 : Tracker) : ExecState :=
  let em := trimS req.inputEmail
  let dsc := jsOr req.inputDescription req.convSourceBody
  let pid :=
    if req.inputProductId ≠ "" then strReplaceFirst req.inputProductId "product_" ""
    else ""
  let cid := jsOr req.conversationIdField req.convObjId
  let bg := backgroundTask em (trimS req.inputSubject) dsc pid cid env
    (trackerSet tr0 em inProgressRec)
  { responseSent := true, timerCleared := true, emissions := [View.homepage],
    tracker := bg.tracker,
    trackerLog := (em, inProgressRec) :: trackerWrites bg.events,
    bgEvents := bg.events,
    locals := some
      { customerEmail := jsOr req.contactEmail req.customerEmail,
        defaultTitle := "Conversation from "
          ++ jsOr req.contactName (jsOr req.customerName "Contact"),
        defaultDescription := req.convSourceBody },
    atEmit := some (trackerSet tr0 em inProgressRec),
    accepted := some dsc }

theorem runSubmit_valid (req : SubmitReq) (env : Env) (tr0 : Tracker)
    (L0 : Option IntercomCtx)
    (hcid : req.componentId = "submit_ticket_button")
    (hemail : ¬ trimS req.inputEmail = "")
    (hsubj : ¬ trimS req.inputSubject = "")
    (hdesc : ¬ jsOr req.inputDescription req.convSourceBody = "")
    (hprod : ¬ (if req.inputProductId ≠ "" then
        strReplaceFirst req.inputProductId "product_" "" else "") = "") :
    runSubmit req env false tr0 L0 = validSubmitOutcome req env tr0 := by
  have hp1 : ¬ req.inputProductId = "" := by
    intro h
    exact hprod (by simp [h])
  have hp2 : ¬ strReplaceFirst req.inputProductId "product_" "" = "" := by
    intro h2
    exact hprod (by rw [if_pos hp1]; exact h2)
  simp only [runSubmit, runBranch, stepTimerIf, sendResponse, recordEmit, directEmit,
    timerFire, validSubmitOutcome, hcid]
  simp [hemail, hsubj, hdesc, hp1, hp2]

theorem runSubmit_validation_error (req : SubmitReq) (env : Env) (tr0 : Tracker)
    (L0 : Option IntercomCtx)
    (hcid : req.componentId = "submit_ticket_button")
    (hbad : trimS req.inputEmail = "" ∨ trimS req.inputSubject = "") :
    runSubmit req env false tr0 L0 =
      { responseSent := true, timerCleared := true,
        emissions := [View.errorForm
          (if trimS req.inputEmail = "" then some "Email is required" else none)
          (if trimS req.inputSubject = "" then some "Subject is required" else none)],
        tracker := tr0, trackerLog := [], bgEvents := [],
        locals := some
          { customerEmail := jsOr req.contactEmail req.customerEmail,
            defaultTitle := "Conversation from "
              ++ jsOr req.contactName (jsOr req.customerName "Contact"),
            defaultDescription := req.convSourceBody },
        atEmit := some tr0, accepted := none } := by
  simp only [runSubmit, runBranch, stepTimerIf, sendResponse, recordEmit, directEmit,
    timerFire, hcid]
  rcases hbad with h | h <;> simp [h]

theorem runSubmit_empty_description_rejected (req : SubmitReq) (env : Env)
    (tr0 : Tracker) (L0 : Option IntercomCtx)
    (hcid : req.componentId = "submit_ticket_button")
    (hemail : ¬ trimS req.inputEmail = "")
    (hsubj : ¬ trimS req.inputSubject = "")
    (hdesc : jsOr req.inputDescription req.convSourceBody = "") :
    runSubmit req env false tr0 L0 =
      { responseSent := true, timerCleared := true,
        emissions := [View.fillAllFields],
        tracker := tr0, trackerLog := [], bgEvents := [],
        locals := some
          { customerEmail := jsOr req.contactEmail req.customerEmail,
            defaultTitle := "Conversation from "
              ++ jsOr req.contactName (jsOr req.customerName "Contact"),
            defaultDescription := req.convSourceBody },
        atEmit := some tr0, accepted := none } := by
  simp only [runSubmit, runBranch, stepTimerIf, sendResponse, recordEmit, directEmit,
    timerFire, hcid]
  simp [hemail, hsubj, hdesc]

/-- Every run of the background task with a nonempty email ends with exactly
one terminal tracker write, and that write is the last event. -/
theorem backgroundTask_terminal (email subject description productId cid : String)
    (env : Env) (tr : Tracker) (hem : ¬ email = "") :
    ∃ rec pre,
      (backgroundTask email subject description productId cid env tr).events
          = pre ++ [BgEvent.trackerSet email rec] ∧
        trackerWrites pre = [] ∧
        (backgroundTask email subject description productId cid env tr).tracker
          = trackerSet tr email rec ∧
        rec.inProgress = false ∧
        ((∃ tid, rec = completedRec tid) ∨ (∃ e, rec = failedRec e)) := by
  by_cases hc : cid = ""
  · cases h2 : env.createTicket with
    | ok tid =>
      refine ⟨completedRec tid, [BgEvent.createTicket description], ?_, ?_, ?_, rfl, Or.inl ⟨tid, rfl⟩⟩
      · simp [backgroundTask, hc, hem, h2]
      · simp [trackerWrites]
      · simp [backgroundTask, hc, hem, h2]
    | error e =>
      refine ⟨failedRec e, [BgEvent.createTicket description], ?_, ?_, ?_, rfl, Or.inr ⟨e, rfl⟩⟩
      · simp [backgroundTask, hc, hem, h2]
      · simp [trackerWrites]
      · simp [backgroundTask, hc, hem, h2]
  · cases h1 : env.helperTranscript with
    | error e =>
      refine ⟨failedRec e,
        [BgEvent.transcriptFetch cid, BgEvent.addTranscript cid,
          BgEvent.notePosted cid (failureNoteBody e)], ?_, ?_, ?_, rfl, Or.inr ⟨e, rfl⟩⟩
      · simp [backgroundTask, hc, hem, h1]
      · simp [trackerWrites]
      · simp [backgroundTask, hc, hem, h1]
    | ok t =>
      cases h2 : env.createTicket with
      | ok tid =>
        refine ⟨completedRec tid, ?_, ?_, ?_, ?_, rfl, Or.inl ⟨tid, rfl⟩⟩
        · exact [BgEvent.transcriptFetch cid, BgEvent.addTranscript cid,
            BgEvent.createTicket ((match env.inlineTranscript with
              | Except.ok t0 => if t0 = "" then description else description ++ "\n\n" ++ t0
              | Except.error _ => description) ++ t),
            BgEvent.notePosted cid (successNoteBody tid)]
        · simp [backgroundTask, hc, hem, h1, h2]
        · simp [trackerWrites]
        · simp [backgroundTask, hc, hem, h1, h2]
      | error e =>
        refine ⟨failedRec e, ?_, ?_, ?_, ?_, rfl, Or.inr ⟨e, rfl⟩⟩
        · exact [BgEvent.transcriptFetch cid, BgEvent.addTranscript cid,
            BgEvent.createTicket ((match env.inlineTranscript with
              | Except.ok t0 => if t0 = "" then description else description ++ "\n\n" ++ t0
              | Except.error _ => description) ++ t),
            BgEvent.notePosted cid (failureNoteBody e)]
        · simp [backgroundTask, hc, hem, h1, h2]
        · simp [trackerWrites]
        · simp [backgroundTask, hc, hem, h1, h2]

theorem hasSubstrS_append_self (x e : String) : hasSubstrS (x ++ e) e = true := by
  have h : (x ++ e).toList = x.toList ++ e.toList := by simp [String.toList]
  rw [hasSubstrS, h]
  exact hasSubstr_append_self _ _

/-- Phase of a background event: transcript work, ticket creation,
notification, tracker update. -/
def bgPhase : BgEvent → Nat
  | BgEvent.transcriptFetch _ => 0
  | BgEvent.addTranscript _ => 0
  | BgEvent.createTicket _ => 1
  | BgEvent.notePosted _ _ => 2
  | BgEvent.trackerSet _ _ => 3

/-- Checks that phases never decrease along an event list. -/
def phasesMonotone : List BgEvent → Bool
  | [] => true
  | [_] => true
  | a :: b :: t => decide (bgPhase a ≤ bgPhase b) && phasesMonotone (b :: t)

/-! ### Claim C8 -/

/-- C8 (counterexample): the claim "on success the Notifier is called with a
success message containing the ticket reference" is false for a submission
without a conversation identifier: the background task succeeds (the tracker
is marked completed with ticket 42) yet posts no note at all. -/
theorem backgroundTask_no_note_without_conversation :
    (backgroundTask "a@b.com" "Help" "d" "1" ""
          { createTicket := Except.ok 42 } []).events
        = [BgEvent.createTicket "d", BgEvent.trackerSet "a@b.com" (completedRec 42)] ∧
      ((backgroundTask "a@b.com" "Help" "d" "1" ""
          { createTicket := Except.ok 42 } []).events.all
        (fun ev => match ev with
          | BgEvent.notePosted _ _ => false
          | _ => true)) = true ∧
      trackerGet (backgroundTask "a@b.com" "Help" "d" "1" ""
          { createTicket := Except.ok 42 } []).tracker "a@b.com"
        = some (completedRec 42) := by decide

/-- C8 (amended): within one submission's background task carrying a
conversation identifier, the steps run strictly in the order transcript work
(inline fetch, then the transcript-merging helper), then ticket creation,
then notification, then tracker update; on success the note contains the
ticket reference and the tracker ends completed; on failure (of the helper
or of ticket creation) the note contains the error text and the tracker ends
failed. Without a conversation identifier no note is posted and only the
creation and tracker steps run. -/
theorem backgroundTask_ordering (email subject description productId cid : String)
    (env : Env) (tr : Tracker) (hcid : ¬ cid = "") (hem : ¬ email = "") :
    phasesMonotone
        (backgroundTask email subject description productId cid env tr).events = true ∧
      (∀ e, env.helperTranscript = Except.error e →
        (backgroundTask email subject description productId cid env tr).events
            = [BgEvent.transcriptFetch cid, BgEvent.addTranscript cid,
               BgEvent.notePosted cid (failureNoteBody e),
               BgEvent.trackerSet email (failedRec e)] ∧
          hasSubstrS (failureNoteBody e) e = true ∧
          trackerGet
              (backgroundTask email subject description productId cid env tr).tracker
              email = some (failedRec e)) ∧
      (∀ t tid, env.helperTranscript = Except.ok t → env.createTicket = Except.ok tid →
        (∃ dsc, (backgroundTask email subject description productId cid env tr).events
            = [BgEvent.transcriptFetch cid, BgEvent.addTranscript cid,
               BgEvent.createTicket dsc,
               BgEvent.notePosted cid (successNoteBody tid),
               BgEvent.trackerSet email (completedRec tid)]) ∧
          hasSubstrS (successNoteBody tid) (toString tid) = true ∧
          trackerGet
              (backgroundTask email subject description productId cid env tr).tracker
              email = some (completedRec tid)) ∧
      (∀ t e, env.helperTranscript = Except.ok t → env.createTicket = Except.error e →
        (∃ dsc, (backgroundTask email subject description productId cid env tr).events
            = [BgEvent.transcriptFetch cid, BgEvent.addTranscript cid,
               BgEvent.createTicket dsc,
               BgEvent.notePosted cid (failureNoteBody e),
               BgEvent.trackerSet email (failedRec e)]) ∧
          hasSubstrS (failureNoteBody e) e = true ∧
          trackerGet
              (backgroundTask email subject description productId cid env tr).tracker
              email = some (failedRec e)) := by
  refine ⟨?_, ?_, ?_, ?_⟩
  · cases h1 : env.helperTranscript with
    | error e => simp [backgroundTask, hcid, hem, h1, phasesMonotone, bgPhase]
    | ok t =>
      cases h2 : env.createTicket with
      | ok tid => simp [backgroundTask, hcid, hem, h1, h2, phasesMonotone, bgPhase]
      | error e => simp [backgroundTask, hcid, hem, h1, h2, phasesMonotone, bgPhase]
  · intro e h1
    refine ⟨by simp [backgroundTask, hcid, hem, h1], hasSubstrS_append_self _ e, ?_⟩
    have htr : (backgroundTask email subject description productId cid env tr).tracker
        = trackerSet tr email (failedRec e) := by
      simp [backgroundTask, hcid, hem, h1]
    rw [htr, trackerGet_set]
  · intro t tid h1 h2
    refine ⟨⟨(match env.inlineTranscript with
        | Except.ok t0 => if t0 = "" then description else description ++ "\n\n" ++ t0
        | Except.error _ => description) ++ t, by simp [backgroundTask, hcid, hem, h1, h2]⟩,
      hasSubstrS_append_self _ (toString tid), ?_⟩
    have htr : (backgroundTask email subject description productId cid env tr).tracker
        = trackerSet tr email (completedRec tid) := by
      simp [backgroundTask, hcid, hem, h1, h2]
    rw [htr, trackerGet_set]
  · intro t e h1 h2
    refine ⟨⟨(match env.inlineTranscript with
        | Except.ok t0 => if t0 = "" then description else description ++ "\n\n" ++ t0
        | Except.error _ => description) ++ t, by simp [backgroundTask, hcid, hem, h1, h2]⟩,
      hasSubstrS_append_self _ e, ?_⟩
    have htr : (backgroundTask email subject description productId cid env tr).tracker
        = trackerSet tr email (failedRec e) := by
      simp [backgroundTask, hcid, hem, h1, h2]
    rw [htr, trackerGet_set]

/-- C8 (witness): a concrete run with a conversation id and a successful
creation exhibits the ordering and callbacks. -/
theorem backgroundTask_ordering_witness :
    phasesMonotone
        (backgroundTask "a@b.com" "Help" "d" "1" "conv1"
          { createTicket := Except.ok 42 } []).events = true ∧
      trackerGet (backgroundTask "a@b.com" "Help" "d" "1" "conv1"
            { createTicket := Except.ok 42 } []).tracker "a@b.com"
        = some (completedRec 42) := by
  have h := backgroundTask_ordering "a@b.com" "Help" "d" "1" "conv1"
    { createTicket := Except.ok 42 } [] (by decide) (by decide)
  exact ⟨h.1, (h.2.2.1 "" 42 rfl rfl).2.2⟩

/-! ### Claim C7 -/

/-- Environment in which the conversation upstream errors: both the inline
transcript fetch and the transcript-merging helper fail. -/
def envTranscriptDown : Env :=
  { inlineTranscript := Except.error "502",
    helperTranscript := Except.error "502 Bad Gateway" }

/-- Environment in which only the guarded inline transcript fetch fails. -/
def envInlineDown : Env :=
  { inlineTranscript := Except.error "502", createTicket := Except.ok 7 }

/-- C7: when the transcript upstream errors for a submission with a
conversation identifier, the background task never reaches ticket creation:
the guarded inline fetch failure is tolerated, but the unguarded
`addConversationTranscriptToTicket` failure jumps to the catch block, which
posts a failure note and marks the tracker failed — ticket creation is
aborted, contradicting the claim. When only the guarded inline fetch fails,
creation does proceed. -/
theorem backgroundTask_transcript_failure_aborts :
    (backgroundTask "a@b.com" "Help" "d" "1" "conv1" envTranscriptDown []).events
        = [BgEvent.transcriptFetch "conv1", BgEvent.addTranscript "conv1",
           BgEvent.notePosted "conv1" (failureNoteBody "502 Bad Gateway"),
           BgEvent.trackerSet "a@b.com" (failedRec "502 Bad Gateway")] ∧
      ((backgroundTask "a@b.com" "Help" "d" "1" "conv1" envTranscriptDown []).events.all
        (fun ev => match ev with
          | BgEvent.createTicket _ => false
          | _ => true)) = true ∧
      trackerGet (backgroundTask "a@b.com" "Help" "d" "1" "conv1"
          envTranscriptDown []).tracker "a@b.com"
        = some (failedRec "502 Bad Gateway") ∧
      (backgroundTask "a@b.com" "Help" "d" "1" "conv1" envInlineDown []).events
        = [BgEvent.transcriptFetch "conv1", BgEvent.addTranscript "conv1",
           BgEvent.createTicket "d",
           BgEvent.notePosted "conv1" (successNoteBody 7),
           BgEvent.trackerSet "a@b.com" (completedRec 7)] := by decide

/-! ### Claim C1 -/

/-- A submission whose `component_id` takes the retry path; the unrecognized
fallback path behaves identically. -/
def reqRetry : SubmitReq := { componentId := "retry_button" }

/-- C1: the claim that every emission path checks the response-already-sent
flag is false on the code: the retry/refresh path (like the unrecognized-id
fallback and the metadata-error path) replies with a direct `res.json`,
neither setting the flag nor cancelling the 9-second timer, so the timer
later fires, passes its own flag check, and emits a second response: two
emissions for a single submission. -/
theorem submit_bypass_paths_double_emission :
    (runSubmit reqRetry env0 false [] none).emissions
        = [View.homepage, View.timeoutHomepage] ∧
      (runSubmit reqRetry env0 false [] none).emissions.length = 2 := by decide

/-! ### Claim C2 -/

/-- A submission whose email is present but does not look like an email
address (no `@`), with all other required fields supplied. -/
def reqBadEmail : SubmitReq :=
  { componentId := "submit_ticket_button", inputEmail := "not-an-email",
    inputSubject := "Help", inputDescription := "d", inputProductId := "product_1" }

/-- C2 (counterexample): the orchestrator performs no email-format check: a
non-empty email without an `@` passes validation, the homepage (not the
re-rendered form) is returned, and an in-progress tracker entry is created
for that identity. -/
theorem submit_invalid_email_not_rejected :
    ("not-an-email".toList.all (fun c => c != '@')) = true ∧
      (runSubmit reqBadEmail env0 false [] none).emissions = [View.homepage] ∧
      (runSubmit reqBadEmail env0 false [] none).trackerLog.head?
        = some ("not-an-email", inProgressRec) := by decide

/-- C2 (amended): for every ticket-form submission whose email or subject is
empty after trimming, handled before the fallback timer fires, the
orchestrator re-renders the form flagging exactly the violated field(s) with
their error messages, creates no tracker entry, and starts no background
work; email-format validity is not checked server-side. -/
theorem submit_empty_fields_rejected (req : SubmitReq) (env : Env) (tr0 : Tracker)
    (L0 : Option IntercomCtx)
    (hcid : req.componentId = "submit_ticket_button")
    (hbad : trimS req.inputEmail = "" ∨ trimS req.inputSubject = "") :
    (runSubmit req env false tr0 L0).emissions
        = [View.errorForm
            (if trimS req.inputEmail = "" then some "Email is required" else none)
            (if trimS req.inputSubject = "" then some "Subject is required" else none)] ∧
      (runSubmit req env false tr0 L0).tracker = tr0 ∧
      (runSubmit req env false tr0 L0).trackerLog = [] ∧
      (runSubmit req env false tr0 L0).bgEvents = [] := by
  rw [runSubmit_validation_error req env tr0 L0 hcid hbad]
  exact ⟨rfl, rfl, rfl, rfl⟩

/-- A ticket-form submission with a whitespace-only email. -/
def reqEmptyEmail : SubmitReq :=
  { componentId := "submit_ticket_button", inputEmail := " ", inputSubject := "Help" }

/-- C2 (witness): the whitespace-only email is rejected with only the email
field flagged and no tracker entry. -/
theorem submit_empty_fields_rejected_witness :
    (runSubmit reqEmptyEmail env0 false [] none).emissions
        = [View.errorForm (some "Email is required") none] ∧
      (runSubmit reqEmptyEmail env0 false [] none).tracker = [] ∧
      (runSubmit reqEmptyEmail env0 false [] none).trackerLog = [] ∧
      (runSubmit reqEmptyEmail env0 false [] none).bgEvents = [] := by
  have h := submit_empty_fields_rejected reqEmptyEmail env0 [] none rfl
    (Or.inl (by decide))
  have he : trimS reqEmptyEmail.inputEmail = "" := by decide
  have hs : ¬ trimS reqEmptyEmail.inputSubject = "" := by decide
  rw [he] at h
  rw [if_pos rfl, if_neg hs] at h
  exact h

/-! ### Claim C3 -/

/-- A valid submission whose conversation contact email differs from the
email typed into the form. -/
def reqSplitEmail : SubmitReq :=
  { componentId := "submit_ticket_button", inputEmail := "i@y.com",
    inputSubject := "Help", inputDescription := "d", inputProductId := "product_1",
    contactEmail := "c@x.com" }

/-- C3 (counterexample): when the 9-second fallback fires before the normal
response (the schedule flag set to true) for a valid submission whose
contact email differs from the form email, the timer creates an in-progress
entry for the contact identity that no later step ever terminates, while the
form identity completes normally — an entry is left permanently
`InProgress`, contradicting the claim. -/
theorem submit_timer_orphan_in_progress :
    trackerGet (runSubmit reqSplitEmail env0 true [] none).tracker "c@x.com"
        = some inProgressRec ∧
      trackerGet (runSubmit reqSplitEmail env0 true [] none).tracker "i@y.com"
        = some (completedRec 1) ∧
      ((runSubmit reqSplitEmail env0 true [] none).trackerLog.filter
          (fun p => p.1 == "c@x.com" && !p.2.inProgress)).length = 0 := by decide

/-- C3 (amended): for every identity with no existing tracker entry, a valid
submission handled before the fallback timer fires creates exactly one
`InProgress` entry for the form email, visible in the tracker at the moment
the response is emitted, and the background task then performs exactly one
terminal tracker write, leaving the entry `Completed` with a ticket id or
`Failed` with an error message; if the fallback timer fires first, an
additional `InProgress` entry keyed by the conversation contact email can be
created and is never terminated by this submission when that address
differs from the form email. -/
theorem submit_valid_tracker_lifecycle (req : SubmitReq) (env : Env) (tr0 : Tracker)
    (L0 : Option IntercomCtx)
    (hcid : req.componentId = "submit_ticket_button")
    (hemail : ¬ trimS req.inputEmail = "")
    (hsubj : ¬ trimS req.inputSubject = "")
    (hdesc : ¬ jsOr req.inputDescription req.convSourceBody = "")
    (hprod : ¬ (if req.inputProductId ≠ "" then
        strReplaceFirst req.inputProductId "product_" "" else "") = "")
    (hfresh : trackerGet tr0 (trimS req.inputEmail) = none) :
    (∃ tA, (runSubmit req env false tr0 L0).atEmit = some tA ∧
        trackerGet tA (trimS req.inputEmail) = some inProgressRec) ∧
      ((runSubmit req env false tr0 L0).trackerLog.filter
          (fun p => p.1 == trimS req.inputEmail && p.2.inProgress)).length = 1 ∧
      ((runSubmit req env false tr0 L0).trackerLog.filter
          (fun p => p.1 == trimS req.inputEmail && !p.2.inProgress)).length = 1 ∧
      ∃ rec, trackerGet (runSubmit req env false tr0 L0).tracker (trimS req.inputEmail)
            = some rec ∧ rec.inProgress = false ∧
          ((∃ tid, rec = completedRec tid) ∨ (∃ e, rec = failedRec e)) := by
  rw [runSubmit_valid req env tr0 L0 hcid hemail hsubj hdesc hprod]
  obtain ⟨rec, pre, hev, hpre, htr, hip, hterm⟩ := backgroundTask_terminal
    (trimS req.inputEmail) (trimS req.inputSubject)
    (jsOr req.inputDescription req.convSourceBody)
    (if req.inputProductId ≠ "" then strReplaceFirst req.inputProductId "product_" ""
      else "")
    (jsOr req.conversationIdField req.convObjId) env
    (trackerSet tr0 (trimS req.inputEmail) inProgressRec) hemail
  simp only [validSubmitOutcome]
  refine ⟨⟨trackerSet tr0 (trimS req.inputEmail) inProgressRec, rfl,
    trackerGet_set _ _ _⟩, ?_, ?_, rec, ?_, hip, hterm⟩
  · rw [hev, trackerWrites_append, hpre]
    simp [trackerWrites, List.filter, hip, inProgressRec]
  · rw [hev, trackerWrites_append, hpre]
    simp [trackerWrites, List.filter, hip, inProgressRec]
  · rw [htr, trackerGet_set]

/-- A fully valid ticket submission. -/
def reqGood : SubmitReq :=
  { componentId := "submit_ticket_button", inputEmail := "a@b.com",
    inputSubject := "Help", inputDescription := "d", inputProductId := "product_1" }

/-- C3 (witness): the lifecycle holds for a concrete valid submission on an
empty tracker. -/
theorem submit_valid_tracker_lifecycle_witness :
    (∃ tA, (runSubmit reqGood env0 false [] none).atEmit = some tA ∧
        trackerGet tA (trimS reqGood.inputEmail) = some inProgressRec) ∧
      ((runSubmit reqGood env0 false [] none).trackerLog.filter
          (fun p => p.1 == trimS reqGood.inputEmail && p.2.inProgress)).length = 1 ∧
      ((runSubmit reqGood env0 false [] none).trackerLog.filter
          (fun p => p.1 == trimS reqGood.inputEmail && !p.2.inProgress)).length = 1 ∧
      ∃ rec, trackerGet (runSubmit reqGood env0 false [] none).tracker
            (trimS reqGood.inputEmail)
          = some rec ∧ rec.inProgress = false ∧
          ((∃ tid, rec = completedRec tid) ∨ (∃ e, rec = failedRec e)) :=
  submit_valid_tracker_lifecycle reqGood env0 [] none rfl (by decide) (by decide)
    (by decide) (by decide) (by decide)

/-! ### Claim C9 -/

/-- A validated submission with no description input and no conversation
source body. -/
def reqNoDescr : SubmitReq :=
  { componentId := "submit_ticket_button", inputEmail := "a@b.com",
    inputSubject := "Help", inputProductId := "product_1" }

/-- C9 (counterexample): a validated submission whose description is empty
does not succeed with a constant placeholder: with no conversation source
body to fall back on, the submission is rejected with the
fill-all-required-fields view, no tracker entry, and no background work. -/
theorem submit_empty_description_rejected :
    (runSubmit reqNoDescr env0 false [] none).emissions = [View.fillAllFields] ∧
      (runSubmit reqNoDescr env0 false [] none).tracker = [] ∧
      (runSubmit reqNoDescr env0 false [] none).bgEvents = [] ∧
      (runSubmit reqNoDescr env0 false [] none).accepted = none := by decide

/-- C9 (amended): a validated submission with an empty description input
falls back to the conversation's source body: when that body is nonempty the
submission succeeds with it as the accepted description; when it is also
empty the submission is rejected with the required-fields error view
(the placeholder `Chat Transcript Added` is only the client-side form
prefill, not a server-side default). -/
theorem submit_description_defaulting (req : SubmitReq) (env : Env) (tr0 : Tracker)
    (L0 : Option IntercomCtx)
    (hcid : req.componentId = "submit_ticket_button")
    (hemail : ¬ trimS req.inputEmail = "")
    (hsubj : ¬ trimS req.inputSubject = "")
    (hprod : ¬ (if req.inputProductId ≠ "" then
        strReplaceFirst req.inputProductId "product_" "" else "") = "")
    (hdinput : req.inputDescription = "") :
    (¬ req.convSourceBody = "" →
        (runSubmit req env false tr0 L0).emissions = [View.homepage] ∧
          (runSubmit req env false tr0 L0).accepted = some req.convSourceBody) ∧
      (req.convSourceBody = "" →
        (runSubmit req env false tr0 L0).emissions = [View.fillAllFields] ∧
          (runSubmit req env false tr0 L0).tracker = tr0 ∧
          (runSubmit req env false tr0 L0).bgEvents = []) := by
  constructor
  · intro hsb
    have hd : ¬ jsOr req.inputDescription req.convSourceBody = "" := by
      rw [hdinput]
      simpa [jsOr] using hsb
    rw [runSubmit_valid req env tr0 L0 hcid hemail hsubj hd hprod]
    refine ⟨rfl, ?_⟩
    simp only [validSubmitOutcome]
    rw [hdinput]
    simp [jsOr]
  · intro hsb
    have hd : jsOr req.inputDescription req.convSourceBody = "" := by
      rw [hdinput, hsb]
      simp [jsOr]
    rw [runSubmit_empty_description_rejected req env tr0 L0 hcid hemail hsubj hd]
    exact ⟨rfl, rfl, rfl⟩

/-- A validated submission with an empty description input but a nonempty
conversation source body. -/
def reqSrcBody : SubmitReq :=
  { componentId := "submit_ticket_button", inputEmail := "a@b.com",
    inputSubject := "Help", inputProductId := "product_1",
    convSourceBody := "from conversation" }

/-- C9 (witness): with a nonempty conversation source body the empty
description defaults to it and the submission succeeds. -/
theorem submit_description_defaulting_witness :
    (runSubmit reqSrcBody env0 false [] none).emissions = [View.homepage] ∧
      (runSubmit reqSrcBody env0 false [] none).accepted
        = some reqSrcBody.convSourceBody :=
  (submit_description_defaulting reqSrcBody env0 [] none rfl (by decide) (by decide)
    (by decide) rfl).1 (by decide)

/-! ### Claim C10 -/

/-- An initialize request from one user. -/
def initReqX : InitReq := { customerEmail := "x@a.com" }

/-- An initialize request from a different user. -/
def initReqY : InitReq := { customerEmail := "y@b.com" }

/-- A submit request (cancel action) from a third user. -/
def reqCancelZ : SubmitReq := { componentId := "cancel", contactEmail := "z@c.com" }

/-- C10: `GET /api/freshdesk/recent-tickets` without an `email` query
parameter is not determined by the request alone: it serves the customer
email most recently stored in the process-wide `app.locals.intercomContext`
by any prior initialize or submit request, so the same request returns
different users' tickets after different users' earlier requests; a 400
error is returned exactly when both the query parameter and the stored
context email are absent. -/
theorem recentTickets_context_leak :
    (∀ q L, recentTicketsFor q L = Except.error 400 ↔ (q = "" ∧ ctxEmail L = "")) ∧
      recentTicketsFor "" (runInitialize initReqX [] none).2 = Except.ok "x@a.com" ∧
      recentTicketsFor "" (runInitialize initReqY [] none).2 = Except.ok "y@b.com" ∧
      recentTicketsFor "" (runSubmit reqCancelZ env0 false [] none).locals
        = Except.ok "z@c.com" := by
  refine ⟨?_, by decide, by decide, by decide⟩
  intro q L
  unfold recentTicketsFor jsOr
  by_cases hq : q = "" <;> by_cases hl : ctxEmail L = "" <;> simp [hq, hl]

/-- C10 (witness): with no query parameter and no stored context, the
endpoint returns a 400 error. -/
theorem recentTickets_context_leak_witness :
    recentTicketsFor "" (none : Option IntercomCtx) = Except.error 400 :=
  (recentTickets_context_leak.1 "" none).mpr ⟨rfl, rfl⟩
